import Mathlib

/-! Shallow embedding of the korhah reactive-system kernel (`src/system.rs`).

Identifiers (`Id = u128` in the source) are modelled as `Nat`; the allocator
only ever increments `next_id`, and nothing here approaches `2^128`, so
wrap-around is not modelled.  Runtime type identity (`TypeId`) of variable
value types is modelled as a `Nat` tag; event types are the `EvTy` datatype
below.

Type-erased values (`Box<dyn Any>`) become a tag/payload pair; a downcast to
tag `t` succeeds exactly when the stored tag equals `t`, matching `Any`
downcast semantics.  All variable payloads relevant to the claims are
integers, so the payload type is `Int`.

`BTreeMap`s become association lists with unique keys (`mapGet`, `mapInsert`,
`mapErase`); `BTreeSet`s of ids become sorted `List Nat` (`setInsert`,
`setRemove`), preserving the source's ascending iteration order, on which the
update cascade's iteration order depends.  The insertion-ordered `IndexMap`
used for listener buckets becomes an association list where a fresh key is
appended at the end, preserving registration order; `shift_remove` removes a
key while preserving the order of the rest.

Recipes (`Fn(&System, Option<T>) -> T`) are stored in the system state, so
they are embedded syntactically as `RecipeExpr`, covering the recipe forms
the claims use: constant recipes, and recipes that read one variable through
the kernel's own `read` (which is what records dependencies) and add a
constant.  Recipes that fail (an `expect` on a cancelled or missing read)
panic; panics are propagated as the `CResult.panicked` outcome.

Handlers (`Fn(&mut System, &E, &mut Vote, &mut bool)`) are modelled by their
observable dispatch behaviour: the vote they write and whether they set the
abort flag.  Handlers that re-enter the system are outside the model; no
claim below requires them, so `emit` leaves the state unchanged.

Every kernel operation additionally returns the list of events it emitted
(target and event type, in order), mirroring the `emit` calls the source
makes; this instrumentation lets theorems speak about which events an
operation emitted.  `emitR` similarly returns the ids of the handlers it
invoked, in invocation order. -/

/-- Vote cast by an event handler (src/listener.rs). -/
inductive Vote where
  | abstain
  | cancel
  | proceed
deriving DecidableEq, Repr

/-- Tally of handler votes (src/listener.rs). -/
structure Votes where
  abstain : Nat
  cancel : Nat
  proceed : Nat
deriving DecidableEq, Repr

/-- Runtime type identity of an event (its `TypeId` in the source); the
generic built-in events `Creating<T>`, `Created<T>`, `Deleted<T>` carry the
tag of `T`, and `custom n` stands for host-defined event types. -/
inductive EvTy where
  | creating (t : Nat)
  | created (t : Nat)
  | reading
  | read
  | updating
  | updated
  | deleting
  | deleted (t : Nat)
  | custom (n : Nat)
deriving DecidableEq, Repr

/-- Observable behaviour of a registered handler: the vote it writes and
whether it sets the abort flag. -/
structure Handler where
  vote : Vote
  abort : Bool
deriving DecidableEq, Repr

/-- Type-erased stored value: runtime type tag plus integer payload. -/
structure Value where
  ty : Nat
  val : Int
deriving DecidableEq, Repr

/-- Recipe language: the recipe forms used by the claims.  `const c` is
`|_, _| c`; `readAdd src srcTy k` is `|s, _| s.read(src, |v| *v + k)` with
both layers of the result unwrapped by `expect` (so a cancelled read or a
missing source variable panics), where `srcTy` is the type tag of the
captured handle for `src`. -/
inductive RecipeExpr where
  | const (c : Int)
  | readAdd (src : Nat) (srcTy : Nat) (k : Int)
deriving DecidableEq, Repr

/-- Stored, type-erasing wrapper of a recipe (the closure built in
`SystemInner::create`): the variable's type tag plus the user recipe.  The
source wrapper also captures the variable's id; it is always invoked from the
recipe-table entry at that id, so the interpreter passes the id from the
lookup key. -/
structure StoredRecipe where
  ty : Nat
  expr : RecipeExpr
deriving DecidableEq, Repr

/-- Lookup in an association list with unique keys (`BTreeMap::get`). -/
def mapGet {κ α : Type} [DecidableEq κ] (k : κ) : List (κ × α) → Option α
  | [] => none
  | (k', a) :: rest => if k = k' then some a else mapGet k rest

/-- Insert into an association list (`BTreeMap::insert` / `IndexMap::insert`):
replaces in place if the key is present, appends otherwise. -/
def mapInsert {κ α : Type} [DecidableEq κ] (k : κ) (a : α) :
    List (κ × α) → List (κ × α)
  | [] => [(k, a)]
  | (k', a') :: rest => if k = k' then (k, a) :: rest else (k', a') :: mapInsert k a rest

/-- Remove a key from an association list (`BTreeMap::remove` /
`IndexMap::shift_remove`), preserving the order of the rest. -/
def mapErase {κ α : Type} [DecidableEq κ] (k : κ) : List (κ × α) → List (κ × α)
  | [] => []
  | (k', a') :: rest => if k = k' then rest else (k', a') :: mapErase k rest

/-- Modify the entry at a key, inserting a default first if absent
(`entry(k).or_default()` followed by a modification). -/
def mapModify {κ α : Type} [DecidableEq κ] (k : κ) (f : α → α) (d : α)
    (l : List (κ × α)) : List (κ × α) :=
  mapInsert k (f ((mapGet k l).getD d)) l

/-- Insert into a sorted id set (`BTreeSet::insert`). -/
def setInsert (x : Nat) : List Nat → List Nat
  | [] => [x]
  | y :: ys =>
    if x < y then x :: y :: ys else if x = y then y :: ys else y :: setInsert x ys

/-- Remove from a sorted id set (`BTreeSet::remove`). -/
def setRemove (x : Nat) : List Nat → List Nat
  | [] => []
  | y :: ys => if x = y then ys else y :: setRemove x ys

/-- The kernel state (`SystemInner` in src/system.rs).  The `System` wrapper
around it (a reference-counted cell) only provides shared access and is not
modelled separately; operations act directly on the state. -/
structure SystemInner where
  next_id : Nat
  id_pool : List Nat
  tracking_id : Option Nat
  dependencies : List (Nat × List Nat)
  values : List (Nat × Value)
  recipes : List (Nat × StoredRecipe)
  listeners : List (EvTy × List (Option Nat × List (Nat × Handler)))
deriving DecidableEq, Repr

/-- The default (empty) system. -/
def SystemInner.init : SystemInner :=
  { next_id := 0, id_pool := [], tracking_id := none, dependencies := [],
    values := [], recipes := [], listeners := [] }

/-- Outcome of a kernel operation: `ok` is the source's `Ok`, `cancelled` the
source's `Err(())`, and `panicked` a Rust panic (a failed `unwrap` or
`expect`). -/
inductive CResult (α : Type) where
  | ok (a : α)
  | cancelled
  | panicked
deriving DecidableEq, Repr

/-- An emitted event: target (`none` = global scope) and event type. -/
abbrev Emission := Option Nat × EvTy

/-- Result of a CRUD operation: the state after the call, the outcome, and
the events the operation emitted, in order. -/
structure Step (α : Type) where
  state : SystemInner
  result : CResult α
  log : List Emission
deriving DecidableEq, Repr

/-- Add a vote to the tally. -/
def tallyVote (vs : Votes) : Vote → Votes
  | .abstain => { vs with abstain := vs.abstain + 1 }
  | .cancel => { vs with cancel := vs.cancel + 1 }
  | .proceed => { vs with proceed := vs.proceed + 1 }

/-- Run the snapshot of handlers in order (the dispatch loop of
`SystemInner::emit`): each handler is invoked in turn; an aborting handler
stops dispatch immediately with `Err` (its vote untallied), otherwise its
vote is tallied.  Also returns the ids of the invoked handlers, in order. -/
def runHandlers (vs : Votes) : List (Nat × Handler) → Except Unit Votes × List Nat
  | [] => (.ok vs, [])
  | (i, h) :: rest =>
    if h.abort then (.error (), [i])
    else
      let r := runHandlers (tallyVote vs h.vote) rest
      (r.1, i :: r.2)

/-- Handler bucket for an event type and target (the registry lookup in
`SystemInner::emit`): absent levels yield the empty snapshot. -/
def SystemInner.bucket (s : SystemInner) (ety : EvTy) (target : Option Nat) :
    List (Nat × Handler) :=
  ((mapGet ety s.listeners).bind fun targets => mapGet target targets).getD []

/-- Instrumented `SystemInner::emit`: the result together with the ids of
the invoked handlers in invocation order.  Handlers are pure in the model,
so the state is unchanged. -/
def SystemInner.emitR (s : SystemInner) (target : Option Nat) (ety : EvTy) :
    Except Unit Votes × List Nat :=
  runHandlers { abstain := 0, cancel := 0, proceed := 0 } (s.bucket ety target)

/-- `SystemInner::emit`. -/
def SystemInner.emit (s : SystemInner) (target : Option Nat) (ety : EvTy) :
    Except Unit Votes :=
  (s.emitR target ety).1

/-- Cancellation test applied to every cancellable built-in emission:
`.map(|votes| votes.cancel > votes.proceed).unwrap_or(true)`. -/
def emitCancelled : Except Unit Votes → Bool
  | .error _ => true
  | .ok v => decide (v.proceed < v.cancel)

/-- Cancellation criterion as the specification states it: the emission
aborted, or the returned tally has strictly more cancel than proceed
votes. -/
def specCancelled (r : Except Unit Votes) : Prop :=
  r = .error () ∨ ∃ v, r = .ok v ∧ v.proceed < v.cancel

/-- `SystemInner::read` for a handle of value type `vty`.  The callback
(`FnOnce(&T) -> S`, with `S` specialised to `Int`) is a pure function of the
stored payload. -/
def SystemInner.read (s : SystemInner) (vid vty : Nat) (cb : Int → Int) :
    Step (Option Int) :=
  if (mapGet vid s.values).isNone then ⟨s, .ok none, []⟩
  else if emitCancelled (s.emit (some vid) .reading) then
    ⟨s, .cancelled, [(some vid, .reading)]⟩
  else
    let s1 :=
      match s.tracking_id with
      | some dependent =>
        { s with dependencies := mapModify vid (setInsert dependent) [] s.dependencies }
      | none => s
    match mapGet vid s1.values with
    | some w =>
      if w.ty = vty then
        ⟨s1, .ok (some (cb w.val)), [(some vid, .reading), (some vid, .read)]⟩
      else ⟨s1, .panicked, [(some vid, .reading)]⟩
    | none => ⟨s1, .panicked, [(some vid, .reading)]⟩

/-- Evaluate a user recipe against the system (the call `recipe(s, prev)`).
Returns `none` in the middle component when the recipe panics: the claims'
reading recipes `expect` both layers of the result of the `read` they
perform. -/
def SystemInner.evalRecipe (s : SystemInner) :
    RecipeExpr → Option Int → SystemInner × Option Int × List Emission
  | .const c, _ => (s, some c, [])
  | .readAdd src srcTy k, _ =>
    let st := s.read src srcTy fun v => v + k
    match st.result with
    | .ok (some v) => (st.state, some v, st.log)
    | _ => (st.state, none, st.log)

/-- Run the stored wrapper of a recipe (the closure inserted by
`SystemInner::create`): move the previous value out of the store, downcast
it softly (`.ok()`), run the user recipe, and type-erase the result. -/
def SystemInner.runStoredRecipe (s : SystemInner) (vid : Nat) (r : StoredRecipe) :
    SystemInner × Option Value × List Emission :=
  let prev : Option Int :=
    match mapGet vid s.values with
    | some w => if w.ty = r.ty then some w.val else none
    | none => none
  let s0 := { s with values := mapErase vid s.values }
  let res := s0.evalRecipe r.expr prev
  match res.2.1 with
  | some v => (res.1, some { ty := r.ty, val := v }, res.2.2)
  | none => (res.1, none, res.2.2)

/-- `SystemInner::create` for a variable of value type `ty`.  Returns the
new variable's id on success.  On a panic inside the recipe the tracking
marker is left set, as in the source (the reset statement never runs). -/
def SystemInner.create (s : SystemInner) (ty : Nat) (expr : RecipeExpr) : Step Nat :=
  let alloc :=
    match s.id_pool with
    | i :: rest => (i, { s with id_pool := rest })
    | [] => (s.next_id, { s with next_id := s.next_id + 1 })
  let id := alloc.1
  let s1 := { alloc.2 with tracking_id := some id }
  let ev := s1.evalRecipe expr none
  match ev.2.1 with
  | none => ⟨ev.1, .panicked, ev.2.2⟩
  | some v =>
    let s3 := { ev.1 with tracking_id := none }
    if emitCancelled (s3.emit none (.creating ty)) then
      ⟨{ s3 with id_pool := id :: s3.id_pool }, .cancelled,
        ev.2.2 ++ [(none, .creating ty)]⟩
    else
      let s4 := { s3 with
        values := mapInsert id { ty := ty, val := v } s3.values,
        recipes := mapInsert id { ty := ty, expr := expr } s3.recipes }
      ⟨s4, .ok id, ev.2.2 ++ [(none, .creating ty), (none, .created ty)]⟩

/-- One iteration of the dependent-recomputation loop in
`SystemInner::update`: emit `Updating` at the dependent (skip it when
cancelled), rerun its stored recipe, store the new value, emit `Updated`.
The boolean is false when the iteration panicked (a missing recipe fails the
`expect`, and a panicking recipe propagates). -/
def SystemInner.cascadeStep (s : SystemInner) (d : Nat) :
    SystemInner × Bool × List Emission :=
  if emitCancelled (s.emit (some d) .updating) then (s, true, [(some d, .updating)])
  else
    match mapGet d s.recipes with
    | none => (s, false, [(some d, .updating)])
    | some r =>
      let run := s.runStoredRecipe d r
      match run.2.1 with
      | none => (run.1, false, (some d, .updating) :: run.2.2)
      | some w =>
        ({ run.1 with values := mapInsert d w run.1.values }, true,
          ((some d, .updating) :: run.2.2) ++ [(some d, .updated)])

/-- The dependent-recomputation loop of `SystemInner::update`, over the
snapshot of dependents in ascending id order; a panic stops the loop. -/
def SystemInner.cascade (s : SystemInner) : List Nat → SystemInner × Bool × List Emission
  | [] => (s, true, [])
  | d :: ds =>
    let st := s.cascadeStep d
    if st.2.1 then
      let rest := st.1.cascade ds
      (rest.1, rest.2.1, st.2.2 ++ rest.2.2)
    else (st.1, false, st.2.2)

/-- `SystemInner::update` for a handle of value type `vty`.  The callback
(`FnOnce(&mut T) -> S`, with `S` specialised to `Int`) maps the stored
payload to the new payload together with the value returned to the
caller. -/
def SystemInner.update (s : SystemInner) (vid vty : Nat) (cb : Int → Int × Int) :
    Step (Option Int) :=
  if (mapGet vid s.values).isNone then ⟨s, .ok none, []⟩
  else if emitCancelled (s.emit (some vid) .updating) then
    ⟨s, .cancelled, [(some vid, .updating)]⟩
  else
    match mapGet vid s.values with
    | none => ⟨s, .panicked, [(some vid, .updating)]⟩
    | some w =>
      if w.ty = vty then
        let c := cb w.val
        let s1 := { s with values := mapInsert vid { ty := w.ty, val := c.1 } s.values }
        let deps := (mapGet vid s1.dependencies).getD []
        let casc := s1.cascade deps
        if casc.2.1 then
          ⟨casc.1, .ok (some c.2),
            ((some vid, .updating) :: casc.2.2) ++ [(some vid, .updated)]⟩
        else ⟨casc.1, .panicked, (some vid, .updating) :: casc.2.2⟩
      else ⟨s, .panicked, [(some vid, .updating)]⟩

/-- `SystemInner::delete` for a handle of value type `vty`. -/
def SystemInner.delete (s : SystemInner) (vid vty : Nat) : Step (Option Int) :=
  if (mapGet vid s.values).isNone then ⟨s, .ok none, []⟩
  else if !((mapGet vid s.dependencies).getD []).isEmpty then ⟨s, .cancelled, []⟩
  else if emitCancelled (s.emit (some vid) .deleting) then
    ⟨s, .cancelled, [(some vid, .deleting)]⟩
  else
    let newDeps := (mapErase vid s.dependencies).map (fun p => (p.1, setRemove vid p.2))
    let s1 := { s with dependencies := newDeps }
    let s2 := { s1 with recipes := mapErase vid s1.recipes }
    let newLs := s2.listeners.map (fun p => (p.1, mapErase (some vid) p.2))
    let s3 := { s2 with listeners := newLs }
    let s4 := { s3 with id_pool := vid :: s3.id_pool }
    match mapGet vid s4.values with
    | none => ⟨s4, .panicked, [(some vid, .deleting)]⟩
    | some w =>
      let s5 := { s4 with values := mapErase vid s4.values }
      if w.ty = vty then
        ⟨s5, .ok (some w.val), [(some vid, .deleting), (none, .deleted vty)]⟩
      else ⟨s5, .panicked, [(some vid, .deleting)]⟩

/-- `SystemInner::listen` for event type `ety`; no event is emitted. -/
def SystemInner.listen (s : SystemInner) (target : Option Nat) (ety : EvTy)
    (h : Handler) : SystemInner × Option Nat :=
  if (match target with
      | some t => (mapGet t s.values).isNone
      | none => false) then (s, none)
  else
    let alloc :=
      match s.id_pool with
      | i :: rest => (i, { s with id_pool := rest })
      | [] => (s.next_id, { s with next_id := s.next_id + 1 })
    let id := alloc.1
    let newListeners :=
      mapModify ety
        (fun targets => mapModify target (fun hs => mapInsert id h hs) [] targets)
        [] alloc.2.listeners
    let s1 := { alloc.2 with listeners := newListeners }
    (s1, some id)

/-- The id `SystemInner::create` (or `listen`) will allocate next from a
state: the top of the free pool if non-empty, else the counter. -/
def SystemInner.allocatedId (s : SystemInner) : Nat :=
  match s.id_pool with
  | i :: _ => i
  | [] => s.next_id

/-- State after creating variable `a` holding 0 (it receives id 0); the tag
of the Rust type `i32` is 0 throughout the scenarios below. -/
def stateA : SystemInner := (SystemInner.init.create 0 (.const 0)).state

/-- State after additionally creating `b` (id 1) whose recipe reads `a` and
returns `a + 1`. -/
def stateAB : SystemInner := (stateA.create 0 (.readAdd 0 0 1)).state

/-- State after additionally creating `c` (id 2) whose recipe reads `b` and
returns `b + 1`. -/
def stateABC : SystemInner := (stateAB.create 0 (.readAdd 1 0 1)).state

/-- State in which id 0 has been recycled at a different type: `a : i32`
(tag 0) was created and deleted, then a variable of a different type
(tag 1) was created and reuses id 0. -/
def stateRecycled : SystemInner := ((stateA.delete 0 0).state.create 1 (.const 5)).state

/-- Fresh system with one global listener on `Creating<i32>` voting Cancel
unconditionally. -/
def stateCancelListener : SystemInner :=
  (SystemInner.init.listen none (.creating 0) { vote := .cancel, abort := false }).1

/-- System holding variable `a` (id 0) plus a global listener on
`Creating<i32>` voting Cancel unconditionally, so that the next creation is
cancelled after its recipe has run. -/
def stateStaleSetup : SystemInner :=
  (stateA.listen none (.creating 0) { vote := .cancel, abort := false }).1

/-- Three global listeners for a custom event: the second aborts. -/
def stateAbortBucket : SystemInner :=
  let a1 := SystemInner.init.listen none (.custom 0) { vote := .proceed, abort := false }
  let a2 := a1.1.listen none (.custom 0) { vote := .abstain, abort := true }
  let a3 := a2.1.listen none (.custom 0) { vote := .cancel, abort := false }
  a3.1

/-- Two non-aborting global listeners for a custom event. -/
def stateVoteBucket : SystemInner :=
  let a1 := SystemInner.init.listen none (.custom 0) { vote := .cancel, abort := false }
  let a2 := a1.1.listen none (.custom 0) { vote := .proceed, abort := false }
  a2.1

/-- Variable `a` (id 0) with handler H1 registered globally (listener id 1)
and handler H2 registered on `a` (listener id 2), both for the same custom
event type. -/
def stateLocality : SystemInner :=
  let a1 := stateA.listen none (.custom 0) { vote := .abstain, abort := false }
  let a2 := a1.1.listen (some 0) (.custom 0) { vote := .proceed, abort := false }
  a2.1

/-- C1: counter cascade.  In a fresh system with no listeners, creating `a`
with a recipe returning 0 and `b` with a recipe that reads `a` and returns
`a + 1` succeeds; `read(b)` then returns `Ok(Some 1)`, and after
`update(a, v := v + 1)` the dependent `b` has been recomputed, so `read(b)`
returns `Ok(Some 2)`. -/
theorem C1_counter_cascade :
    (SystemInner.init.create 0 (.const 0)).result = .ok 0 ∧
    (stateA.create 0 (.readAdd 0 0 1)).result = .ok 1 ∧
    (stateAB.read 1 0 (fun v => v)).result = .ok (some 1) ∧
    (stateAB.update 0 0 (fun v => (v + 1, 0))).result = .ok (some 0) ∧
    ((stateAB.update 0 0 (fun v => (v + 1, 0))).state.read 1 0 (fun v => v)).result
      = .ok (some 2) := by
  decide

/-- C2: no transitive cascade.  With `b` (id 1) reading `a` (id 0) and `c`
(id 2) reading `b`, an update of `a` recomputes `b`'s stored value via `b`'s
recipe (1 becomes 2) but leaves `c`'s stored value unchanged (it stays 2,
whereas a recomputation of `c` would have stored 3); the update emits events
only at ids 0 and 1, never at id 2. -/
theorem C2_no_transitive_cascade :
    mapGet 1 stateABC.values = some { ty := 0, val := 1 } ∧
    mapGet 2 stateABC.values = some { ty := 0, val := 2 } ∧
    mapGet 1 (stateABC.update 0 0 (fun v => (v + 1, 0))).state.values
      = some { ty := 0, val := 2 } ∧
    mapGet 2 (stateABC.update 0 0 (fun v => (v + 1, 0))).state.values
      = some { ty := 0, val := 2 } ∧
    (stateABC.update 0 0 (fun v => (v + 1, 0))).log
      = [(some 0, .updating), (some 1, .updating), (some 0, .reading),
         (some 0, .read), (some 1, .updated), (some 0, .updated)] := by
  decide

/-- C3 counterexample: with id 0 recycled at a different runtime type
(tag 1 stores the payload 5, while the stale handle carries tag 0), `read`
and `update` through the stale handle panic (the kernel calls
`downcast_ref().unwrap()` / `downcast_mut().unwrap()`); they do not return
`Ok(None)` as the claim states. -/
theorem C3_counterexample :
    mapGet 0 stateRecycled.values = some { ty := 1, val := 5 } ∧
    (stateRecycled.read 0 0 (fun v => v)).result = .panicked ∧
    (stateRecycled.read 0 0 (fun v => v)).result ≠ .ok none ∧
    (stateRecycled.update 0 0 (fun v => (v, v))).result = .panicked ∧
    (stateRecycled.update 0 0 (fun v => (v, v))).result ≠ .ok none := by
  decide

/-- C8 counterexample: in the dangling-guard scenario (fresh system, `a`
holding 0, `b` reading `a` and storing 1, no intervening updates), the third
step `delete(a)` returns `Ok(Some 0)` — the stored value of `a` is 0, not 1
as the claim states. -/
theorem C8_counterexample :
    (stateAB.delete 0 0).result = .cancelled ∧
    (stateAB.delete 1 0).result = .ok (some 1) ∧
    ((stateAB.delete 1 0).state.delete 0 0).result = .ok (some 0) ∧
    ((stateAB.delete 1 0).state.delete 0 0).result ≠ .ok (some 1) := by
  decide

/-- C8 (amended): the dangling-guard trace is `delete(a) = Err`,
`delete(b) = Ok(Some 1)`, `delete(a) = Ok(Some 0)` (the value stored in `a`),
and finally `delete(a) = Ok(None)`. -/
theorem C8_dangling_guard_trace :
    (stateAB.delete 0 0).result = .cancelled ∧
    (stateAB.delete 1 0).result = .ok (some 1) ∧
    ((stateAB.delete 1 0).state.delete 0 0).result = .ok (some 0) ∧
    (((stateAB.delete 1 0).state.delete 0 0).state.delete 0 0).result = .ok none := by
  decide

/-- C9 counterexample: with a global Cancel-voting listener on
`Creating<i32>`, `create(|_, _| 0i32)` is indeed cancelled, but the ID pool
does not keep its size: it was empty before the attempt and holds the
freshly-minted id 1 afterwards. -/
theorem C9_counterexample :
    (stateCancelListener.create 0 (.const 0)).result = .cancelled ∧
    stateCancelListener.id_pool.length = 0 ∧
    (stateCancelListener.create 0 (.const 0)).state.id_pool.length = 1 ∧
    (stateCancelListener.create 0 (.const 0)).state.id_pool.length
      ≠ stateCancelListener.id_pool.length := by
  decide

/-- C9 (amended): with a global Cancel-voting listener on `Creating<i32>`,
`create(|_, _| 0i32)` returns `Err`, and the cancelled creation pushes the
attempted id onto the ID pool: the pool afterwards is the attempted id (1,
freshly minted since the pool was empty) on top of the old pool, so its size
grows by exactly one; the value store is untouched. -/
theorem C9_cancelled_create_pool :
    (stateCancelListener.create 0 (.const 0)).result = .cancelled ∧
    (stateCancelListener.create 0 (.const 0)).state.id_pool
      = 1 :: stateCancelListener.id_pool ∧
    (stateCancelListener.create 0 (.const 0)).state.id_pool.length
      = stateCancelListener.id_pool.length + 1 ∧
    (stateCancelListener.create 0 (.const 0)).state.values
      = stateCancelListener.values := by
  decide

/-- Specification-side cancellation criterion agrees with the kernel's
`.map(|votes| votes.cancel > votes.proceed).unwrap_or(true)` test. -/
theorem specCancelled_iff (r : Except Unit Votes) :
    specCancelled r ↔ emitCancelled r = true := by
  cases r with
  | error e => cases e; simp [specCancelled, emitCancelled]
  | ok v => simp [specCancelled, emitCancelled]

/-- Helper: a live variable with a non-empty dependent set cannot be
deleted; the call returns cancelled, changes nothing, and emits nothing. -/
theorem delete_guard (s : SystemInner) (vid vty : Nat)
    (hlive : (mapGet vid s.values).isSome = true)
    (hdep : (mapGet vid s.dependencies).getD [] ≠ []) :
    s.delete vid vty = ⟨s, .cancelled, []⟩ := by
  have h1 : (mapGet vid s.values).isNone = false := by
    cases h : mapGet vid s.values with
    | none => rw [h] at hlive; exact absurd hlive (by simp)
    | some w => rfl
  have h2 : ((mapGet vid s.dependencies).getD []).isEmpty = false := by
    cases h : (mapGet vid s.dependencies).getD [] with
    | nil => exact absurd h hdep
    | cons a l => rfl
  unfold SystemInner.delete
  simp [h1, h2]

/-- C4: dangling-dependent guard.  For every live variable whose dependent
set is non-empty, `delete` returns `Err` with the whole system state (values,
recipes, dependency graph, listeners, allocator) unchanged, and emits no
event at all — in particular no `Deleting` event. -/
theorem C4_dangling_dependent_guard (s : SystemInner) (vid vty : Nat)
    (hlive : (mapGet vid s.values).isSome = true)
    (hdep : (mapGet vid s.dependencies).getD [] ≠ []) :
    s.delete vid vty = ⟨s, .cancelled, []⟩ :=
  delete_guard s vid vty hlive hdep

/-- C4 witness: deleting `a` (id 0) while `b` depends on it is cancelled
with the state unchanged and no event emitted. -/
theorem C4_witness : stateAB.delete 0 0 = ⟨stateAB, .cancelled, []⟩ :=
  C4_dangling_dependent_guard stateAB 0 0 (by decide) (by decide)

/-- Helper: `read` never touches the listener registry. -/
theorem read_state_listeners (s : SystemInner) (vid vty : Nat) (cb : Int → Int) :
    (s.read vid vty cb).state.listeners = s.listeners := by
  unfold SystemInner.read
  cases ht : s.tracking_id <;>
    simp only [ht] <;>
    (repeat' split) <;> rfl

/-- Helper: recipe evaluation never touches the listener registry (the
recipe language only reads). -/
theorem evalRecipe_listeners (s : SystemInner) (e : RecipeExpr) (p : Option Int) :
    (s.evalRecipe e p).1.listeners = s.listeners := by
  cases e with
  | const c => rfl
  | readAdd src srcTy k =>
    unfold SystemInner.evalRecipe
    dsimp only
    split <;> exact read_state_listeners ..

/-- Helper: `emit` depends only on the listener registry. -/
theorem emit_of_listeners_eq (s1 s2 : SystemInner) (h : s1.listeners = s2.listeners)
    (target : Option Nat) (ety : EvTy) : s1.emit target ety = s2.emit target ety := by
  unfold SystemInner.emit SystemInner.emitR SystemInner.bucket
  rw [h]

/-- Helper: for a live variable, `read` is cancelled exactly when the
`Reading` emission satisfies the cancellation criterion. -/
theorem read_cancel_iff (s : SystemInner) (vid vty : Nat) (cb : Int → Int)
    (hlive : (mapGet vid s.values).isSome = true) :
    ((s.read vid vty cb).result = .cancelled ↔
      specCancelled (s.emit (some vid) .reading)) := by
  have h1 : (mapGet vid s.values).isNone = false := by
    cases h : mapGet vid s.values with
    | none => rw [h] at hlive; exact absurd hlive (by simp)
    | some w => rfl
  rw [specCancelled_iff]
  by_cases hc : emitCancelled (s.emit (some vid) .reading) = true
  · unfold SystemInner.read
    simp [h1, hc]
  · simp only [hc, iff_false]
    simp only [Bool.not_eq_true] at hc
    unfold SystemInner.read
    simp only [h1, hc, Bool.false_eq_true, if_false]
    cases ht : s.tracking_id <;>
      simp only [ht] <;>
      (repeat' split) <;> simp

/-- Helper: for a live variable, `update` is cancelled exactly when the
primary `Updating` emission satisfies the cancellation criterion. -/
theorem update_cancel_iff (s : SystemInner) (vid vty : Nat) (cbu : Int → Int × Int)
    (hlive : (mapGet vid s.values).isSome = true) :
    ((s.update vid vty cbu).result = .cancelled ↔
      specCancelled (s.emit (some vid) .updating)) := by
  have h1 : (mapGet vid s.values).isNone = false := by
    cases h : mapGet vid s.values with
    | none => rw [h] at hlive; exact absurd hlive (by simp)
    | some w => rfl
  rw [specCancelled_iff]
  by_cases hc : emitCancelled (s.emit (some vid) .updating) = true
  · unfold SystemInner.update
    simp [h1, hc]
  · simp only [hc, iff_false]
    simp only [Bool.not_eq_true] at hc
    unfold SystemInner.update
    simp only [h1, hc, Bool.false_eq_true, if_false]
    (repeat' split) <;> simp

/-- Helper: for a live variable with no dependents, `delete` is cancelled
exactly when the `Deleting` emission satisfies the cancellation
criterion. -/
theorem delete_cancel_iff (s : SystemInner) (vid vty : Nat)
    (hlive : (mapGet vid s.values).isSome = true)
    (hdep : (mapGet vid s.dependencies).getD [] = []) :
    ((s.delete vid vty).result = .cancelled ↔
      specCancelled (s.emit (some vid) .deleting)) := by
  have h1 : (mapGet vid s.values).isNone = false := by
    cases h : mapGet vid s.values with
    | none => rw [h] at hlive; exact absurd hlive (by simp)
    | some w => rfl
  have h2 : ((mapGet vid s.dependencies).getD []).isEmpty = true := by
    rw [hdep]; rfl
  rw [specCancelled_iff]
  by_cases hc : emitCancelled (s.emit (some vid) .deleting) = true
  · unfold SystemInner.delete
    simp [h1, h2, hc]
  · simp only [hc, iff_false]
    simp only [Bool.not_eq_true] at hc
    unfold SystemInner.delete
    simp only [h1, h2, hc, Bool.false_eq_true, if_false, Bool.not_true]
    (repeat' split) <;> simp

/-- Helper: `create` (when it does not panic inside the recipe) is cancelled
exactly when the `Creating` emission satisfies the cancellation criterion;
the emission tally only depends on the listener registry, which neither the
allocation nor the tracked recipe run touches, so the criterion can be read
off the entry state. -/
theorem create_cancel_iff (s : SystemInner) (ty : Nat) (e : RecipeExpr)
    (hnp : (s.create ty e).result ≠ .panicked) :
    ((s.create ty e).result = .cancelled ↔
      specCancelled (s.emit none (.creating ty))) := by
  rw [specCancelled_iff]
  unfold SystemInner.create at hnp ⊢
  cases hp : s.id_pool with
  | cons i rest =>
    simp only [hp] at hnp ⊢
    rcases hev : ({ s with id_pool := rest, tracking_id := some i } : SystemInner).evalRecipe e none
      with ⟨es, ev, elog⟩
    simp only [hev] at hnp ⊢
    cases ev with
    | none => simp at hnp
    | some v =>
      have hl : ({ es with tracking_id := none } : SystemInner).listeners = s.listeners := by
        have h := evalRecipe_listeners { s with id_pool := rest, tracking_id := some i } e none
        rw [hev] at h
        exact h
      rw [emit_of_listeners_eq _ s hl none (.creating ty)]
      by_cases hc : emitCancelled (s.emit none (.creating ty)) = true <;> simp [hc]
  | nil =>
    simp only [hp] at hnp ⊢
    rcases hev : ({ s with next_id := s.next_id + 1, id_pool := [], tracking_id := some s.next_id } : SystemInner).evalRecipe e none with ⟨es, ev, elog⟩
    simp only [hev] at hnp ⊢
    cases ev with
    | none => simp at hnp
    | some v =>
      have hl : ({ es with tracking_id := none } : SystemInner).listeners = s.listeners := by
        have h := evalRecipe_listeners
          { s with next_id := s.next_id + 1, id_pool := [], tracking_id := some s.next_id }
          e none
        rw [hev] at h
        exact h
      rw [emit_of_listeners_eq _ s hl none (.creating ty)]
      by_cases hc : emitCancelled (s.emit none (.creating ty)) = true <;> simp [hc]

/-- Helper: a dependent is skipped by the cascade loop (state unchanged,
only the `Updating` emission) exactly when that emission satisfies the
cancellation criterion. -/
theorem cascadeStep_skip_iff (s : SystemInner) (d : Nat) :
    specCancelled (s.emit (some d) .updating) ↔
      s.cascadeStep d = (s, true, [(some d, .updating)]) := by
  rw [specCancelled_iff]
  constructor
  · intro hc
    unfold SystemInner.cascadeStep
    simp [hc]
  · intro h
    by_contra hc
    simp only [Bool.not_eq_true] at hc
    unfold SystemInner.cascadeStep at h
    simp only [hc, Bool.false_eq_true, if_false] at h
    rcases hg : mapGet d s.recipes with _ | r
    · simp [hg] at h
    · simp only [hg] at h
      rcases hrun : s.runStoredRecipe d r with ⟨rs, rv, rlog⟩
      simp only [hrun] at h
      cases rv with
      | none => simp at h
      | some w =>
        have hlen := congrArg (fun t => t.2.2.length) h
        simp at hlen

/-- C5: strict-majority cancellation.  For each cancellable built-in
emission, the guarded action is cancelled iff the emission aborts or its
tally has strictly more cancel than proceed votes (`specCancelled`):
`Creating` guards `create` (when the recipe itself does not panic),
`Reading` guards `read`, `Updating` guards `update` and, per dependent,
the dependent's recomputation in the cascade, and `Deleting` guards
`delete` (once the dependent guard passes, i.e. the dependent set is
empty).  In particular a tie between cancel and proceed lets the action go
ahead (last conjunct). -/
theorem C5_strict_majority (s : SystemInner) (ty vid vty : Nat) (e : RecipeExpr)
    (cb : Int → Int) (cbu : Int → Int × Int)
    (hlive : (mapGet vid s.values).isSome = true) :
    ((s.create ty e).result ≠ .panicked →
      ((s.create ty e).result = .cancelled ↔
        specCancelled (s.emit none (.creating ty)))) ∧
    ((s.read vid vty cb).result = .cancelled ↔
      specCancelled (s.emit (some vid) .reading)) ∧
    ((s.update vid vty cbu).result = .cancelled ↔
      specCancelled (s.emit (some vid) .updating)) ∧
    ((mapGet vid s.dependencies).getD [] = [] →
      ((s.delete vid vty).result = .cancelled ↔
        specCancelled (s.emit (some vid) .deleting))) ∧
    (specCancelled (s.emit (some vid) .updating) ↔
      s.cascadeStep vid = (s, true, [(some vid, .updating)])) ∧
    (∀ v : Votes, s.emit (some vid) .reading = .ok v → v.cancel = v.proceed →
      (s.read vid vty cb).result ≠ .cancelled) := by
  refine ⟨fun hnp => create_cancel_iff s ty e hnp, read_cancel_iff s vid vty cb hlive,
    update_cancel_iff s vid vty cbu hlive,
    fun hd => delete_cancel_iff s vid vty hlive hd,
    cascadeStep_skip_iff s vid, ?_⟩
  intro v hv heq hcan
  have hs := (read_cancel_iff s vid vty cb hlive).mp hcan
  rcases hs with herr | ⟨v', hv', hlt⟩
  · rw [hv] at herr
    exact absurd herr (by simp)
  · rw [hv] at hv'
    have : v = v' := by injection hv'
    subst this
    omega

/-- C5 witness: in the one-variable, no-listener system every built-in
emission returns the empty tally (a tie at zero), so none of the guarded
actions is cancelled, and each equivalence is witnessed concretely. -/
theorem C5_witness :
    ((stateA.create 0 (.const 0)).result = .cancelled ↔
      specCancelled (stateA.emit none (.creating 0))) ∧
    ((stateA.read 0 0 (fun v => v)).result = .cancelled ↔
      specCancelled (stateA.emit (some 0) .reading)) ∧
    ((stateA.update 0 0 (fun v => (v, v))).result = .cancelled ↔
      specCancelled (stateA.emit (some 0) .updating)) ∧
    ((stateA.delete 0 0).result = .cancelled ↔
      specCancelled (stateA.emit (some 0) .deleting)) ∧
    (specCancelled (stateA.emit (some 0) .updating) ↔
      stateA.cascadeStep 0 = (stateA, true, [(some 0, .updating)])) ∧
    (stateA.read 0 0 (fun v => v)).result ≠ .cancelled :=
  ⟨(C5_strict_majority stateA 0 0 0 (.const 0) (fun v => v) (fun v => (v, v))
      (by decide)).1 (by decide),
   (C5_strict_majority stateA 0 0 0 (.const 0) (fun v => v) (fun v => (v, v))
      (by decide)).2.1,
   (C5_strict_majority stateA 0 0 0 (.const 0) (fun v => v) (fun v => (v, v))
      (by decide)).2.2.1,
   (C5_strict_majority stateA 0 0 0 (.const 0) (fun v => v) (fun v => (v, v))
      (by decide)).2.2.2.1 (by decide),
   (C5_strict_majority stateA 0 0 0 (.const 0) (fun v => v) (fun v => (v, v))
      (by decide)).2.2.2.2.1,
   (C5_strict_majority stateA 0 0 0 (.const 0) (fun v => v) (fun v => (v, v))
      (by decide)).2.2.2.2.2 { abstain := 0, cancel := 0, proceed := 0 } rfl rfl⟩

/-- Helper: dispatch over a handler list none of which aborts returns the
tally of every handler's vote and invokes every handler in order. -/
theorem runHandlers_no_abort (l : List (Nat × Handler)) :
    ∀ vs : Votes, (∀ p ∈ l, p.2.abort = false) →
      runHandlers vs l =
        (.ok (l.foldl (fun a p => tallyVote a p.2.vote) vs), l.map Prod.fst) := by
  induction l with
  | nil => intro vs _; rfl
  | cons p rest ih =>
    intro vs hab
    have hrest : ∀ q ∈ rest, q.2.abort = false := fun q hq => hab q (by simp [hq])
    rcases p with ⟨i, h⟩
    have hp : h.abort = false := hab (i, h) (by simp)
    unfold runHandlers
    simp only [hp, Bool.false_eq_true, if_false]
    rw [ih (tallyVote vs h.vote) hrest]
    simp

/-- Helper: dispatch stops at the first aborting handler: the handlers
before it are invoked (and it is invoked), the result is `Err`, and the
handlers after it are never invoked. -/
theorem runHandlers_abort (pre : List (Nat × Handler)) :
    ∀ (vs : Votes) (i : Nat) (h : Handler) (post : List (Nat × Handler)),
      (∀ p ∈ pre, p.2.abort = false) → h.abort = true →
      runHandlers vs (pre ++ (i, h) :: post) = (.error (), pre.map Prod.fst ++ [i]) := by
  induction pre with
  | nil =>
    intro vs i h post _ hab
    unfold runHandlers
    simp [hab]
  | cons p rest ih =>
    intro vs i h post hpre hab
    have hrest : ∀ q ∈ rest, q.2.abort = false := fun q hq => hpre q (by simp [hq])
    rcases p with ⟨j, g⟩
    have hp : g.abort = false := hpre (j, g) (by simp)
    unfold runHandlers
    simp only [List.cons_append, hp, Bool.false_eq_true, if_false]
    rw [ih (tallyVote vs g.vote) i h post hrest hab]
    simp

/-- C6: abort semantics of `emit`.  Over the snapshot of handlers for the
emission's (event type, target) bucket, taken in registration order: if no
handler sets the abort flag, `emit` returns `Ok` with the votes of all
handlers tallied and invokes each of them; if some handler is the first to
set the abort flag, `emit` returns `Err` immediately, having invoked exactly
the handlers up to and including that one — the later handlers are never
invoked, and no tally is returned (`Err` carries none). -/
theorem C6_abort_semantics (s : SystemInner) (target : Option Nat) (ety : EvTy) :
    ((∀ p ∈ s.bucket ety target, p.2.abort = false) →
      s.emitR target ety =
        (.ok ((s.bucket ety target).foldl (fun a p => tallyVote a p.2.vote)
            { abstain := 0, cancel := 0, proceed := 0 }),
          (s.bucket ety target).map Prod.fst)) ∧
    (∀ pre i h post, s.bucket ety target = pre ++ (i, h) :: post →
      (∀ p ∈ pre, p.2.abort = false) → h.abort = true →
      s.emitR target ety = (.error (), pre.map Prod.fst ++ [i])) := by
  constructor
  · intro hab
    unfold SystemInner.emitR
    exact runHandlers_no_abort (s.bucket ety target) _ hab
  · intro pre i h post hsplit hpre hab
    unfold SystemInner.emitR
    rw [hsplit]
    exact runHandlers_abort pre _ i h post hpre hab

/-- C6 witness: with three global handlers of which the second aborts, the
emission returns `Err` having invoked exactly the first two handlers; with
two non-aborting handlers (one Cancel, one Proceed vote), the emission
returns the full tally and invokes both. -/
theorem C6_witness :
    stateAbortBucket.emitR none (.custom 0) = (.error (), [0, 1]) ∧
    stateVoteBucket.emitR none (.custom 0) =
      (.ok { abstain := 0, cancel := 1, proceed := 1 }, [0, 1]) := by
  constructor
  · have h := (C6_abort_semantics stateAbortBucket none (.custom 0)).2
      [(0, { vote := .proceed, abort := false })] 1 { vote := .abstain, abort := true }
      [(2, { vote := .cancel, abort := false })] (by decide) (by decide) (by decide)
    rw [h]
    rfl
  · have h := (C6_abort_semantics stateVoteBucket none (.custom 0)).1 (by decide)
    rw [h]
    rfl

/-- Helper: looking up the key just inserted. -/
theorem mapGet_mapInsert_self {κ α : Type} [DecidableEq κ] (k : κ) (a : α)
    (l : List (κ × α)) : mapGet k (mapInsert k a l) = some a := by
  induction l with
  | nil => simp [mapGet, mapInsert]
  | cons p rest ih =>
    rcases p with ⟨k', a'⟩
    by_cases hk : k = k' <;> simp [mapGet, mapInsert, hk, ih]

/-- Helper: inserting one key does not affect lookups of another. -/
theorem mapGet_mapInsert_ne {κ α : Type} [DecidableEq κ] (k k1 : κ) (a : α)
    (l : List (κ × α)) (hk : k1 ≠ k) :
    mapGet k1 (mapInsert k a l) = mapGet k1 l := by
  induction l with
  | nil => simp [mapGet, mapInsert, hk]
  | cons p rest ih =>
    rcases p with ⟨k', a'⟩
    by_cases h2 : k = k'
    · subst h2
      simp [mapGet, mapInsert, hk]
    · by_cases h3 : k1 = k' <;> simp [mapGet, mapInsert, h2, h3, ih]

/-- Helper: inserting a fresh key appends it at the end (registration
order is preserved, as with `IndexMap::insert`). -/
theorem mapInsert_of_fresh {κ α : Type} [DecidableEq κ] (k : κ) (a : α)
    (l : List (κ × α)) (hk : mapGet k l = none) :
    mapInsert k a l = l ++ [(k, a)] := by
  induction l with
  | nil => rfl
  | cons p rest ih =>
    rcases p with ⟨k', a'⟩
    by_cases h : k = k'
    · subst h
      simp [mapGet] at hk
    · simp only [mapGet, h, if_false, if_neg h] at hk ⊢
      rw [mapInsert]
      simp only [h, if_false, if_neg h, List.cons_append, List.cons.injEq, true_and]
      exact ih hk

/-- Helper: every handler id invoked by dispatch belongs to the dispatched
snapshot. -/
theorem runHandlers_trace_subset (l : List (Nat × Handler)) :
    ∀ (vs : Votes) (i : Nat), i ∈ (runHandlers vs l).2 → i ∈ l.map Prod.fst := by
  induction l with
  | nil => intro vs i hi; simp [runHandlers] at hi
  | cons p rest ih =>
    intro vs i hi
    rcases p with ⟨j, h⟩
    unfold runHandlers at hi
    by_cases hab : h.abort = true
    · simp [hab] at hi
      simp [hi]
    · simp only [Bool.not_eq_true] at hab
      simp only [hab, Bool.false_eq_true, if_false] at hi
      rcases List.mem_cons.mp hi with hj | hrest
      · simp [hj]
      · simp [ih (tallyVote vs h.vote) i hrest]

/-- Helper: a successful `listen` updates the registry exactly at the
three-level entry for its event type and target. -/
theorem listen_result (s : SystemInner) (target : Option Nat) (ety : EvTy)
    (h : Handler) (s1 : SystemInner) (lid : Nat)
    (heq : s.listen target ety h = (s1, some lid)) :
    s1.listeners =
      mapModify ety
        (fun targets => mapModify target (fun hs => mapInsert lid h hs) [] targets)
        [] s.listeners := by
  unfold SystemInner.listen at heq
  split at heq
  · simp at heq
  · cases hp : s.id_pool with
    | nil =>
      simp only [hp] at heq
      have hs1 := congrArg Prod.fst heq
      have hlid := congrArg Prod.snd heq
      simp only [Prod.fst, Prod.snd, Option.some.injEq] at hs1 hlid
      rw [← hs1, ← hlid]
    | cons j rest =>
      simp only [hp] at heq
      have hs1 := congrArg Prod.fst heq
      have hlid := congrArg Prod.snd heq
      simp only [Prod.fst, Prod.snd, Option.some.injEq] at hs1 hlid
      rw [← hs1, ← hlid]

/-- C7: listener locality.  An emission dispatches exactly the handler
bucket registered for its (event type, target) pair: every invoked handler
id belongs to that bucket (so a targeted emission never invokes handlers of
another target, in particular not globally-registered ones, and a global
emission never invokes variable-targeted ones); when no handler of the
bucket aborts, exactly the bucket's handlers are invoked in registration
order; and a successful `listen` appends its handler to precisely its own
(event type, target) bucket, leaving every other bucket unchanged. -/
theorem C7_listener_locality (s : SystemInner) (target : Option Nat) (ety : EvTy) :
    (∀ i ∈ (s.emitR target ety).2, i ∈ (s.bucket ety target).map Prod.fst) ∧
    ((∀ p ∈ s.bucket ety target, p.2.abort = false) →
      (s.emitR target ety).2 = (s.bucket ety target).map Prod.fst) ∧
    (∀ i, i ∉ (s.bucket ety target).map Prod.fst → i ∉ (s.emitR target ety).2) ∧
    (∀ (h : Handler) (s1 : SystemInner) (lid : Nat),
      s.listen target ety h = (s1, some lid) →
      mapGet lid (s.bucket ety target) = none →
      s1.bucket ety target = s.bucket ety target ++ [(lid, h)] ∧
      ∀ (ety2 : EvTy) (t2 : Option Nat), ety2 ≠ ety ∨ t2 ≠ target →
        s1.bucket ety2 t2 = s.bucket ety2 t2) := by
  refine ⟨fun i hi => runHandlers_trace_subset (s.bucket ety target) _ i hi, ?_, ?_, ?_⟩
  · intro hab
    have h := runHandlers_no_abort (s.bucket ety target)
      { abstain := 0, cancel := 0, proceed := 0 } hab
    unfold SystemInner.emitR
    rw [h]
  · intro i hni hmem
    exact hni (runHandlers_trace_subset (s.bucket ety target) _ i hmem)
  · intro h s1 lid heq hfresh
    have hl := listen_result s target ety h s1 lid heq
    constructor
    · unfold SystemInner.bucket
      rw [hl]
      unfold mapModify
      rw [mapGet_mapInsert_self]
      simp only [Option.bind_eq_bind, Option.some_bind, mapGet_mapInsert_self,
        Option.getD_some]
      cases hT : mapGet ety s.listeners with
      | none =>
        simp [SystemInner.bucket, hT] at hfresh ⊢
        rw [mapInsert_of_fresh lid h _ (by simpa using hfresh)]
        simp [mapGet]
      | some T =>
        simp [SystemInner.bucket, hT] at hfresh ⊢
        cases hT2 : mapGet target T with
        | none =>
          simp [hT2] at hfresh ⊢
          rw [mapInsert_of_fresh lid h _ (by simpa [hT2] using hfresh)]
          simp [mapGet]
        | some B =>
          simp [hT2] at hfresh ⊢
          rw [mapInsert_of_fresh lid h _ (by simpa [hT2] using hfresh)]
    · intro ety2 t2 hne
      unfold SystemInner.bucket
      rw [hl]
      rcases hne with hne | hne
      · unfold mapModify
        rw [mapGet_mapInsert_ne ety ety2 _ _ hne]
      · by_cases he : ety2 = ety
        · subst he
          unfold mapModify
          rw [mapGet_mapInsert_self]
          simp only [Option.bind_eq_bind, Option.some_bind]
          rw [mapGet_mapInsert_ne target t2 _ _ hne]
          cases hT : mapGet ety2 s.listeners with
          | none => simp [mapGet]
          | some T => simp
        · unfold mapModify
          rw [mapGet_mapInsert_ne ety ety2 _ _ he]

/-- C7 witness: with H1 (listener id 1) registered globally and H2
(listener id 2) registered on variable 0 for the same event type, emitting
at variable 0 invokes exactly H2 and emitting globally invokes exactly
H1. -/
theorem C7_witness :
    (stateLocality.emitR (some 0) (.custom 0)).2 = [2] ∧
    (stateLocality.emitR none (.custom 0)).2 = [1] := by
  constructor
  · have h := (C7_listener_locality stateLocality (some 0) (.custom 0)).2.1 (by decide)
    rw [h]
    rfl
  · have h := (C7_listener_locality stateLocality none (.custom 0)).2.1 (by decide)
    rw [h]
    rfl

/-- C3 (amended): for every live variable whose stored value has a runtime
type different from the handle's tag (as after an ID recycled at another
type), and whose guarding emission is not cancelled, `read` and `update`
panic (the kernel unwraps the failed downcast); they do not return
`Ok(None)`. -/
theorem C3_mismatch_panics (s : SystemInner) (vid vty : Nat) (w : Value)
    (cb : Int → Int) (cbu : Int → Int × Int)
    (hw : mapGet vid s.values = some w) (hty : w.ty ≠ vty) :
    (emitCancelled (s.emit (some vid) .reading) = false →
      (s.read vid vty cb).result = .panicked) ∧
    (emitCancelled (s.emit (some vid) .updating) = false →
      (s.update vid vty cbu).result = .panicked) := by
  constructor
  · intro hr
    unfold SystemInner.read
    cases ht : s.tracking_id <;> simp [hw, hr, hty, ht]
  · intro hu
    unfold SystemInner.update
    simp [hw, hu, hty]

/-- C3 witness: the amended statement applied to the concrete recycled-id
state (id 0 stores tag 1, the stale handle carries tag 0). -/
theorem C3_witness :
    (stateRecycled.read 0 0 (fun v => v + 7)).result = .panicked ∧
    (stateRecycled.update 0 0 (fun v => (v + 7, v))).result = .panicked :=
  ⟨(C3_mismatch_panics stateRecycled 0 0 { ty := 1, val := 5 } (fun v => v + 7)
      (fun v => (v + 7, v)) (by decide) (by decide)).1 (by decide),
   (C3_mismatch_panics stateRecycled 0 0 { ty := 1, val := 5 } (fun v => v + 7)
      (fun v => (v + 7, v)) (by decide) (by decide)).2 (by decide)⟩

/-- Helper: the inserted id is in the set. -/
theorem mem_setInsert_self (x : Nat) (l : List Nat) : x ∈ setInsert x l := by
  induction l with
  | nil => simp [setInsert]
  | cons y ys ih =>
    by_cases h1 : x < y
    · simp [setInsert, h1]
    · by_cases h2 : x = y
      · simp [setInsert, h1, h2]
      · simp [setInsert, h1, h2, ih]

/-- Helper: inserting into a set never empties it. -/
theorem setInsert_ne_nil (x : Nat) (l : List Nat) : setInsert x l ≠ [] := by
  cases l with
  | nil => simp [setInsert]
  | cons y ys =>
    unfold setInsert
    by_cases h1 : x < y
    · simp [h1]
    · by_cases h2 : x = y <;> simp [h1, h2]

/-- Helper: running a reading recipe under a tracking marker either panics,
or the source variable is live at the expected type, the dependency edge
from the source to the tracked id is recorded, and the recipe returns the
read value plus the constant. -/
theorem evalRecipe_readAdd_run (s1 : SystemInner) (a aty : Nat) (k : Int) (id : Nat)
    (htrack : s1.tracking_id = some id) :
    (s1.evalRecipe (.readAdd a aty k) none).2.1 = none ∨
    (∃ w, mapGet a s1.values = some w ∧ w.ty = aty ∧
      s1.evalRecipe (.readAdd a aty k) none =
        ({ s1 with dependencies := mapModify a (setInsert id) [] s1.dependencies },
          some (w.val + k), [(some a, .reading), (some a, .read)])) := by
  unfold SystemInner.evalRecipe SystemInner.read
  cases hval : mapGet a s1.values with
  | none => left; simp [hval]
  | some w =>
    by_cases hrc : emitCancelled (s1.emit (some a) .reading) = true
    · left; simp [hval, hrc]
    · simp only [Bool.not_eq_true] at hrc
      by_cases hty : w.ty = aty
      · right
        exact ⟨w, rfl, hty, by simp [hval, hrc, htrack, hty]⟩
      · left
        simp [hval, hrc, htrack, hty]

/-- C10: stale edges from a cancelled creation.  Whenever `create` runs a
recipe that reads variable `a` and is then cancelled by the `Creating`
emission, the dependency edge from `a` to the released id (the id the
allocator handed out, `allocatedId`) remains recorded in the dependency
graph, the value store is untouched (so no variable — in particular not the
released id — became live), and a subsequent `delete(a)` is cancelled with
nothing emitted and nothing changed. -/
theorem C10_stale_edge (s : SystemInner) (ty a aty : Nat) (k : Int)
    (h : (s.create ty (.readAdd a aty k)).result = .cancelled) :
    s.allocatedId ∈
      (mapGet a (s.create ty (.readAdd a aty k)).state.dependencies).getD [] ∧
    (s.create ty (.readAdd a aty k)).state.values = s.values ∧
    ∀ vty, (s.create ty (.readAdd a aty k)).state.delete a vty =
      ⟨(s.create ty (.readAdd a aty k)).state, .cancelled, []⟩ := by
  unfold SystemInner.allocatedId
  unfold SystemInner.create at h ⊢
  cases hp : s.id_pool with
  | cons i rest =>
    simp only [hp] at h ⊢
    rcases evalRecipe_readAdd_run { s with id_pool := rest, tracking_id := some i }
        a aty k i rfl with hnone | ⟨w, hval, hty, hrun⟩
    · rw [hnone] at h
      simp at h
    · simp only [hrun] at h ⊢
      split at h
      next hcc =>
        simp only [hcc, if_true]
        refine ⟨?_, by trivial, ?_⟩
        · show i ∈ (mapGet a (mapInsert a
            (setInsert i ((mapGet a s.dependencies).getD [])) s.dependencies)).getD []
          rw [mapGet_mapInsert_self]
          exact mem_setInsert_self i _
        · intro vty
          apply delete_guard
          · have hval2 : mapGet a s.values = some w := hval
            show (mapGet a s.values).isSome = true
            rw [hval2]
            rfl
          · show (mapGet a (mapInsert a
              (setInsert i ((mapGet a s.dependencies).getD [])) s.dependencies)).getD [] ≠ []
            rw [mapGet_mapInsert_self]
            exact setInsert_ne_nil i _
      next hcc => simp at h
  | nil =>
    simp only [hp] at h ⊢
    rcases evalRecipe_readAdd_run
        { s with next_id := s.next_id + 1, id_pool := [], tracking_id := some s.next_id }
        a aty k s.next_id rfl with hnone | ⟨w, hval, hty, hrun⟩
    · rw [hnone] at h
      simp at h
    · simp only [hrun] at h ⊢
      split at h
      next hcc =>
        simp only [hcc, if_true]
        refine ⟨?_, by trivial, ?_⟩
        · show s.next_id ∈ (mapGet a (mapInsert a
            (setInsert s.next_id ((mapGet a s.dependencies).getD [])) s.dependencies)).getD []
          rw [mapGet_mapInsert_self]
          exact mem_setInsert_self s.next_id _
        · intro vty
          apply delete_guard
          · have hval2 : mapGet a s.values = some w := hval
            show (mapGet a s.values).isSome = true
            rw [hval2]
            rfl
          · show (mapGet a (mapInsert a
              (setInsert s.next_id ((mapGet a s.dependencies).getD [])) s.dependencies)).getD []
                ≠ []
            rw [mapGet_mapInsert_self]
            exact setInsert_ne_nil s.next_id _
      next hcc => simp at h

/-- C10 witness: with `a` (id 0) live and a global Cancel listener on
`Creating<i32>`, creating `b` reading `a` is cancelled, the stale edge from
`a` to the released id 2 remains, id 2 holds no value, and `delete(a)` is
cancelled although no live variable depends on `a`. -/
theorem C10_witness :
    stateStaleSetup.allocatedId ∈
      (mapGet 0 (stateStaleSetup.create 0 (.readAdd 0 0 1)).state.dependencies).getD [] ∧
    (stateStaleSetup.create 0 (.readAdd 0 0 1)).state.values = stateStaleSetup.values ∧
    (stateStaleSetup.create 0 (.readAdd 0 0 1)).state.delete 0 0 =
      ⟨(stateStaleSetup.create 0 (.readAdd 0 0 1)).state, .cancelled, []⟩ ∧
    mapGet 2 (stateStaleSetup.create 0 (.readAdd 0 0 1)).state.values = none :=
  ⟨(C10_stale_edge stateStaleSetup 0 0 0 1 (by decide)).1,
   (C10_stale_edge stateStaleSetup 0 0 0 1 (by decide)).2.1,
   (C10_stale_edge stateStaleSetup 0 0 0 1 (by decide)).2.2 0,
   by decide⟩
